import Mathlib

/-!
Verification of the filter/aggregate pipeline of the bank customer
segmentation dashboard (`src/app.py`).

The dashboard loads a per-(city, cluster) rollup table and derives, from a
sidebar filter state, a filtered row subset (`fdf_base`), a paginated view
(`fdf`), KPI scalars, a normalized per-city metric profile (`prof_norm`),
a per-cluster summary (`seg_summary`) and strategy recommendation tags
(`recs`).  This file embeds those computations over exact rationals and
proves / refutes the specified properties.

Modelling conventions:
* a pandas DataFrame is a `List Row` in original row order;
* numeric cells are `ℚ` (the embedding covers datasets whose numeric cells
  parse, so `pd.to_numeric(..., errors="coerce")` at src/app.py:112 produces
  no missing marker); `CustLocation` is `Option String` because the app
  treats null city names specially (src/app.py:114);
* `Series.sort_values` is modelled as a stable sort (`List.insertionSort`);
  for a fixed input numpy's sort is deterministic, and on the two-element
  tie groups used in concrete counterexamples it keeps the input order;
* the float division at src/app.py:167 yields NaN when the denominator is
  zero and the dashboard renders that marker; the embedding returns
  `Option ℚ` with `none` for that undefined case.
-/

namespace BankSeg

/-- One row of the loaded table `top_kpis.csv` after the numeric coercion at
src/app.py:110-112: a city name (null allowed), a cluster id and the six
numeric rollup columns. -/
structure Row where
  custLocation : Option String
  cluster : Int
  customerCount : ℚ
  avgAge : ℚ
  avgRecency : ℚ
  avgFrequency : ℚ
  avgAvgMonetary : ℚ
  avgTotalMonetary : ℚ
deriving DecidableEq, Repr

/-- The sidebar state read on each render cycle (src/app.py:121-133, 150):
selected cities, selected clusters, optional Top-N cutoff, cities per page,
requested page index and the show-all override. -/
structure FilterState where
  city_sel : List String
  cluster_sel : List Int
  topn : Option Nat
  page_size : Nat
  page : Nat
  show_all : Bool
deriving DecidableEq, Repr

/-- Embeds `Series.isin(cities)` applied to the `CustLocation` column: a null
city never matches a list of city names. -/
def cityIn (r : Row) (cities : List String) : Bool :=
  match r.custLocation with
  | some c => decide (c ∈ cities)
  | none => false

/-- Embeds `sorted(values.unique().tolist())`: the ascending list of the
distinct values.  `insertionSort` is a stable comparison sort, and after
sorting the first-appearance order that pandas `unique` keeps is
irrelevant. -/
def uniqueSorted (l : List String) : List String :=
  List.insertionSort (· ≤ ·) l.dedup

/-- Embeds `all_cities = sorted(df["CustLocation"].dropna().unique().tolist())`
(src/app.py:114): null cities are dropped before building the selectable
list. -/
def all_cities (df : List Row) : List String :=
  uniqueSorted (df.filterMap Row.custLocation)

/-- The rows of one `groupby("CustLocation")` group: rows whose city equals
`c`. -/
def cityGroup (rows : List Row) (c : String) : List Row :=
  rows.filter (fun r => decide (r.custLocation = some c))

/-- Total CustomerCount of one city group, as summed by
`groupby("CustLocation")["CustomerCount"].sum()` (src/app.py:139). -/
def cityCount (rows : List Row) (c : String) : ℚ :=
  ((cityGroup rows c).map Row.customerCount).sum

/-- Descending comparison on (city, total) pairs used by
`sort_values(ascending=False)` at src/app.py:139: only the total is
compared. -/
def totalDesc (a b : String × ℚ) : Prop := b.2 ≤ a.2

instance : DecidableRel totalDesc :=
  fun a b => inferInstanceAs (Decidable (b.2 ≤ a.2))

instance : IsTotal (String × ℚ) totalDesc :=
  ⟨fun a b => le_total b.2 a.2⟩

instance : IsTrans (String × ℚ) totalDesc :=
  ⟨fun _ _ _ h1 h2 => le_trans h2 h1⟩

/-- Embeds `city_totals_all` (src/app.py:138-140): per-city CustomerCount
totals, keyed by the ascending distinct city names that `groupby` produces,
then sorted by total in descending order.  `sort_values` is modelled as a
stable sort, so cities with equal totals stay in ascending name order. -/
def city_totals_all (rows : List Row) : List (String × ℚ) :=
  List.insertionSort totalDesc
    ((uniqueSorted (rows.filterMap Row.custLocation)).map (fun c => (c, cityCount rows c)))

/-- Embeds `keep_cities = city_totals_all.head(topn).index.tolist()`
(src/app.py:141). -/
def keep_cities (rows : List Row) (n : Nat) : List String :=
  ((city_totals_all rows).take n).map Prod.fst

/-- Embeds the base city/cluster filter
`df[df["CustLocation"].isin(city_sel) & df["Cluster"].isin(cluster_sel)]`
(src/app.py:136). -/
def fdf_pre (df : List Row) (city_sel : List String) (cluster_sel : List Int) : List Row :=
  df.filter (fun r => cityIn r city_sel && decide (r.cluster ∈ cluster_sel))

/-- Embeds `fdf_base` (src/app.py:136-142): the city/cluster filter followed,
when the Top-N option is active, by the restriction to the kept cities.
Python's `if topn:` treats `0` as false, hence the explicit zero case. -/
def fdf_base (df : List Row) (city_sel : List String) (cluster_sel : List Int)
    (topn : Option Nat) : List Row :=
  let base := fdf_pre df city_sel cluster_sel
  match topn with
  | none => base
  | some n =>
    if n = 0 then base
    else base.filter (fun r => cityIn r (keep_cities base n))

/-- Embeds `candidate_cities = sorted(fdf_base["CustLocation"].unique().tolist())`
(src/app.py:148). -/
def candidate_cities (rows : List Row) : List String :=
  uniqueSorted (rows.filterMap Row.custLocation)

/-- Embeds `total_pages = max(1, math.ceil(len(candidate_cities) / page_size))`
(src/app.py:149); the ceiling of an exact division is computed with natural
division. -/
def total_pages (rows : List Row) (page_size : Nat) : Nat :=
  max 1 (((candidate_cities rows).length + page_size - 1) / page_size)

/-- Embeds `current_cities = candidate_cities[start:end]` (src/app.py:151-153)
with `page` first clamped to `[1, total_pages]`, which is what the
`st.number_input` bounds at src/app.py:150 enforce. -/
def current_cities (rows : List Row) (page_size page : Nat) : List String :=
  let p := max 1 (min page (total_pages rows page_size))
  ((candidate_cities rows).drop ((p - 1) * page_size)).take page_size

/-- Embeds the page restriction of src/app.py:144-154: with the show-all
override the filtered rows pass through unchanged, otherwise only rows whose
city is on the current page remain. -/
def fdf_page (rows : List Row) (page_size page : Nat) (show_all : Bool) : List Row :=
  if show_all then rows
  else rows.filter (fun r => cityIn r (current_cities rows page_size page))

/-- The pagination operation as a pair (pageRows, totalPages).  In the
show-all branch the app renders every city in a single view and shows no
page control, which the specification describes as one page. -/
def paginateCities (rows : List Row) (page_size page : Nat) (show_all : Bool) :
    List Row × Nat :=
  (fdf_page rows page_size page show_all,
    if show_all then 1 else total_pages rows page_size)

/-- Embeds `fdf` (src/app.py:144-154): the full pipeline from the loaded
table and a sidebar state to the rows every chart and table renders. -/
def fdf (df : List Row) (fs : FilterState) : List Row :=
  fdf_page (fdf_base df fs.city_sel fs.cluster_sel fs.topn) fs.page_size fs.page fs.show_all

/-- Embeds `csv = fdf.to_csv(index=False)` (src/app.py:392): the row subset
serialized into the downloadable artifact is `fdf`, the page-restricted
frame, with the same column set as the input. -/
def export_rows (df : List Row) (fs : FilterState) : List Row :=
  fdf df fs

/-- Embeds `int(df['CustomerCount'].sum())` (src/app.py:161), computed over
the full unfiltered table. -/
def totalCustomers (df : List Row) : ℚ :=
  (df.map Row.customerCount).sum

/-- Numerator of the weighted average spend KPI:
`(df["AvgTotalMonetary"] * df["CustomerCount"]).sum()` (src/app.py:167). -/
def weightedSpendNum (df : List Row) : ℚ :=
  (df.map (fun r => r.avgTotalMonetary * r.customerCount)).sum

/-- Embeds `weighted_spend` (src/app.py:167).  When the total CustomerCount
is zero the float division yields the NaN marker, which the dashboard
renders instead of crashing; the embedding returns `none` for that undefined
case. -/
def weighted_spend (df : List Row) : Option ℚ :=
  if totalCustomers df = 0 then none
  else some (weightedSpendNum df / totalCustomers df)

/-- The KPI row (src/app.py:159-168) is rendered from `df`, the full
unfiltered table, while `fdf` exists alongside: its value ignores the
sidebar filter state. -/
def kpi_weighted_spend (df : List Row) (_fs : FilterState) : Option ℚ :=
  weighted_spend df

/-- Minimum of a list of rationals, as `Series.min()` over a nonempty
column; the empty-list value is junk and is never relied upon. -/
def listMin : List ℚ → ℚ
  | [] => 0
  | x :: xs => xs.foldl min x

/-- Maximum of a list of rationals, as `Series.max()` over a nonempty
column. -/
def listMax : List ℚ → ℚ
  | [] => 0
  | x :: xs => xs.foldl max x

/-- Embeds one column of
`city_profile = fdf.groupby("CustLocation")[metric_cols].mean()`
(src/app.py:287-289): the unweighted mean of metric `f` over each city
group, keyed by the ascending distinct city names. -/
def city_profile (rows : List Row) (f : Row → ℚ) : List (String × ℚ) :=
  (candidate_cities rows).map
    (fun c => (c, ((cityGroup rows c).map f).sum / ((cityGroup rows c).length : ℚ)))

/-- Embeds one iteration of the normalization loop at src/app.py:290-293:
`rng = col.max() - col.min(); col = 0.5 if rng == 0 else (col - col.min()) / rng`. -/
def prof_norm (rows : List Row) (f : Row → ℚ) : List (String × ℚ) :=
  let prof := city_profile rows f
  let vals := prof.map Prod.snd
  let mn := listMin vals
  let rng := listMax vals - mn
  if rng = 0 then prof.map (fun p => (p.1, 1 / 2))
  else prof.map (fun p => (p.1, (p.2 - mn) / rng))

/-- Ascending distinct cluster ids, the keys of `fdf.groupby("Cluster")`
(src/app.py:343). -/
def clustersOf (rows : List Row) : List Int :=
  List.insertionSort (· ≤ ·) (rows.map Row.cluster).dedup

/-- The rows of one `groupby("Cluster")` group. -/
def clusterGroup (rows : List Row) (k : Int) : List Row :=
  rows.filter (fun r => decide (r.cluster = k))

/-- Round a rational to the nearest integer, halves to the even neighbour;
this is the rounding `numpy.round` applies under `DataFrame.round`
(src/app.py:351). -/
def roundHalfEven (q : ℚ) : ℤ :=
  if q - (⌊q⌋ : ℚ) = 1 / 2 then (if ⌊q⌋ % 2 = 0 then ⌊q⌋ else ⌊q⌋ + 1)
  else round q

/-- Embeds `.round(2)` applied cellwise by src/app.py:351. -/
def round2 (q : ℚ) : ℚ :=
  (roundHalfEven (q * 100) : ℚ) / 100

/-- Unweighted mean of metric `f` over a group, as the `"mean"` aggregation
of src/app.py:345-350. -/
def groupMean (g : List Row) (f : Row → ℚ) : ℚ :=
  (g.map f).sum / (g.length : ℚ)

/-- One row of `seg_summary`: the cluster id and the five aggregated
columns in the column order of src/app.py:343-344. -/
structure SegRow where
  cluster : Int
  customerCount : ℚ
  avgAge : ℚ
  avgFrequency : ℚ
  avgTotalMonetary : ℚ
  avgRecency : ℚ
deriving DecidableEq, Repr

/-- Embeds `seg_summary` (src/app.py:342-351): group `fdf` by cluster, sum
CustomerCount, take the unweighted mean of the four metric columns, then
round every aggregated cell to two decimals. -/
def seg_summary (rows : List Row) : List SegRow :=
  (clustersOf rows).map (fun k =>
    let g := clusterGroup rows k
    ⟨k, round2 ((g.map Row.customerCount).sum),
      round2 (groupMean g Row.avgAge),
      round2 (groupMean g Row.avgFrequency),
      round2 (groupMean g Row.avgTotalMonetary),
      round2 (groupMean g Row.avgRecency)⟩)

/-- Embeds `Series.median()` (src/app.py:369-370): sort the values, take the
middle one when the length is odd, otherwise the mean of the two middle
ones. -/
def medianQ (l : List ℚ) : ℚ :=
  let s := List.insertionSort (· ≤ ·) l
  if s.length % 2 = 1 then s.getD (s.length / 2) 0
  else (s.getD (s.length / 2 - 1) 0 + s.getD (s.length / 2) 0) / 2

/-- The four recommendation buckets emitted by the strategy loop
(src/app.py:373-380), abstracting the four fixed message templates. -/
inductive Strategy where
  | premium
  | valueAdd
  | crossSell
  | reEngagement
deriving DecidableEq, Repr

/-- Descending comparison on summary rows used by
`seg_summary.sort_values("AvgTotalMonetary", ascending=False)`
(src/app.py:371), modelled as a stable sort. -/
def spendDesc (a b : SegRow) : Prop := b.avgTotalMonetary ≤ a.avgTotalMonetary

instance : DecidableRel spendDesc :=
  fun a b => inferInstanceAs (Decidable (b.avgTotalMonetary ≤ a.avgTotalMonetary))

instance : IsTotal SegRow spendDesc :=
  ⟨fun a b => le_total b.avgTotalMonetary a.avgTotalMonetary⟩

instance : IsTrans SegRow spendDesc :=
  ⟨fun _ _ _ h1 h2 => le_trans h2 h1⟩

/-- Embeds the strategy suggestion loop `recs` (src/app.py:367-380): when
the summary is nonempty, compute the two medians, walk the summary rows in
descending spend order and emit one bucket per row, comparing spend and
frequency against the medians with `>=`. -/
def recs (s : List SegRow) : List (Int × Strategy) :=
  if s.isEmpty then []
  else
    let med_spend := medianQ (s.map SegRow.avgTotalMonetary)
    let med_freq := medianQ (s.map SegRow.avgFrequency)
    (List.insertionSort spendDesc s).map (fun r =>
      (r.cluster,
        if med_spend ≤ r.avgTotalMonetary ∧ med_freq ≤ r.avgFrequency then Strategy.premium
        else if med_spend ≤ r.avgTotalMonetary then Strategy.valueAdd
        else if med_freq ≤ r.avgFrequency then Strategy.crossSell
        else Strategy.reEngagement))

/-- Modelled from the spec: the Top-N city ranking as the specification
sentence words it — "rank cities descending by that total (ties broken by
original row order of first appearance)".  Distinct cities are listed in
first-appearance order (`dedup` of the raw column keeps one occurrence per
city; reversing twice yields first appearances) and a stable descending
sort then breaks total ties by that appearance order.  Used only to compare
the claimed tie-break with the one the code implements. -/
def keep_cities_specFirstAppearance (rows : List Row) (n : Nat) : List String :=
  let firstAppear := ((rows.filterMap Row.custLocation).reverse.dedup).reverse
  ((List.insertionSort totalDesc (firstAppear.map (fun c => (c, cityCount rows c)))).take n).map
    Prod.fst

/-- Modelled from the spec: `fdf_base` with the Top-N tie-break the claim
describes, for refinement comparison against `fdf_base`. -/
def fdf_base_specFirstAppearance (df : List Row) (city_sel : List String)
    (cluster_sel : List Int) (topn : Option Nat) : List Row :=
  let base := fdf_pre df city_sel cluster_sel
  match topn with
  | none => base
  | some n =>
    if n = 0 then base
    else base.filter (fun r => cityIn r (keep_cities_specFirstAppearance base n))

/-! ## Basic facts about the embedded pipeline -/

theorem mem_uniqueSorted {a : String} {l : List String} :
    a ∈ uniqueSorted l ↔ a ∈ l := by
  unfold uniqueSorted
  rw [(List.perm_insertionSort _ _).mem_iff]
  exact List.mem_dedup

theorem nodup_uniqueSorted (l : List String) : (uniqueSorted l).Nodup :=
  ((List.perm_insertionSort _ _).nodup_iff).mpr (List.nodup_dedup l)

theorem sorted_uniqueSorted (l : List String) :
    List.Sorted (· ≤ ·) (uniqueSorted l) :=
  List.sorted_insertionSort _ _

theorem pairwise_lt_uniqueSorted (l : List String) :
    List.Pairwise (· < ·) (uniqueSorted l) :=
  ((sorted_uniqueSorted l).and (nodup_uniqueSorted l)).imp
    (fun h => lt_of_le_of_ne h.1 h.2)

theorem cityIn_iff {r : Row} {cs : List String} :
    cityIn r cs = true ↔ ∃ c, r.custLocation = some c ∧ c ∈ cs := by
  cases h : r.custLocation <;> simp [cityIn, h]

theorem isSome_of_cityIn {r : Row} {cs : List String} (h : cityIn r cs = true) :
    r.custLocation.isSome := by
  rcases cityIn_iff.mp h with ⟨c, hc, _⟩
  simp [hc]

theorem mem_fdf_pre {r : Row} {df : List Row} {cs : List String} {ks : List Int} :
    r ∈ fdf_pre df cs ks ↔ r ∈ df ∧ cityIn r cs = true ∧ r.cluster ∈ ks := by
  simp [fdf_pre, List.mem_filter, and_assoc]

theorem isSome_of_mem_fdf_pre {r : Row} {df : List Row} {cs : List String} {ks : List Int}
    (h : r ∈ fdf_pre df cs ks) : r.custLocation.isSome :=
  isSome_of_cityIn (mem_fdf_pre.mp h).2.1

theorem fdf_base_eq_pre_or_filter (df : List Row) (cs : List String) (ks : List Int)
    (t : Option Nat) :
    fdf_base df cs ks t = fdf_pre df cs ks ∨
      ∃ n : Nat, 0 < n ∧ t = some n ∧
        fdf_base df cs ks t =
          (fdf_pre df cs ks).filter
            (fun r => cityIn r (keep_cities (fdf_pre df cs ks) n)) := by
  match t with
  | none => exact Or.inl rfl
  | some n =>
    by_cases hn : n = 0
    · exact Or.inl (by simp [fdf_base, hn])
    · exact Or.inr ⟨n, Nat.pos_of_ne_zero hn, rfl, by simp [fdf_base, hn]⟩

theorem mem_of_mem_fdf_base {r : Row} {df : List Row} {cs : List String} {ks : List Int}
    {t : Option Nat} (h : r ∈ fdf_base df cs ks t) : r ∈ fdf_pre df cs ks := by
  rcases fdf_base_eq_pre_or_filter df cs ks t with he | ⟨n, _, _, he⟩
  · rwa [he] at h
  · rw [he] at h
    exact (List.mem_filter.mp h).1

theorem isSome_of_mem_fdf_base {r : Row} {df : List Row} {cs : List String} {ks : List Int}
    {t : Option Nat} (h : r ∈ fdf_base df cs ks t) : r.custLocation.isSome :=
  isSome_of_mem_fdf_pre (mem_of_mem_fdf_base h)

theorem mem_candidate_cities {c : String} {rows : List Row} :
    c ∈ candidate_cities rows ↔ ∃ r ∈ rows, r.custLocation = some c := by
  unfold candidate_cities
  rw [mem_uniqueSorted, List.mem_filterMap]

theorem sum_map_filter_add (l : List Row) (p : Row → Bool) (f : Row → ℚ) :
    ((l.filter p).map f).sum + ((l.filter (fun r => !p r)).map f).sum = (l.map f).sum := by
  induction l with
  | nil => simp
  | cons a l ih =>
    by_cases h : p a = true <;>
      simp [List.filter_cons, h, ih.symm] <;> ring

/-! ## Example datasets used by witnesses and counterexamples -/

/-- KPI example rows: CustomerCount 2 and 3, AvgTotalMonetary 100 and 200. -/
def exKpi : List Row :=
  [⟨some "A", 0, 2, 0, 0, 0, 0, 100⟩, ⟨some "A", 0, 3, 0, 0, 0, 0, 200⟩]

/-- A dataset whose total CustomerCount is zero. -/
def exZero : List Row := [⟨some "A", 0, 0, 0, 0, 0, 0, 100⟩]

/-- A row with a missing city name. -/
def rowNull : Row := ⟨none, 0, 5, 0, 0, 0, 0, 0⟩

/-- A row of city A used together with `rowNull`. -/
def rowMissA : Row := ⟨some "A", 0, 3, 0, 0, 0, 0, 0⟩

/-- Dataset with one missing-city row and one selectable row. -/
def exMiss : List Row := [rowNull, rowMissA]

/-! ## C3: the weighted average spend KPI -/

/-- C3: the weightedAvgSpend KPI is computed over the full unfiltered
dataset — it ignores the sidebar filter state entirely — and equals the sum
of AvgTotalMonetary times CustomerCount over all rows divided by the sum of
CustomerCount whenever the latter is nonzero; when the total CustomerCount
is zero the KPI is the undefined marker (`none`, the NaN the dashboard
renders) instead of a crash. -/
theorem weighted_spend_kpi_global (df : List Row) :
    (∀ fs fs' : FilterState, kpi_weighted_spend df fs = kpi_weighted_spend df fs') ∧
    ((df.map Row.customerCount).sum ≠ 0 →
      weighted_spend df =
        some ((df.map (fun r => r.avgTotalMonetary * r.customerCount)).sum /
          (df.map Row.customerCount).sum)) ∧
    ((df.map Row.customerCount).sum = 0 → weighted_spend df = none) := by
  refine ⟨fun _ _ => rfl, fun h => ?_, fun h => ?_⟩ <;>
    simp [weighted_spend, totalCustomers, weightedSpendNum, h]

/-- Witness for C3 at concrete inputs: counts [2,3] and monetary values
[100,200] give exactly 160, and a zero-count dataset reports the undefined
marker. -/
theorem weighted_spend_kpi_global_witness :
    (exKpi.map Row.customerCount).sum ≠ 0 ∧
    weighted_spend exKpi = some 160 ∧
    weighted_spend exZero = none := by
  have h1 : (exKpi.map Row.customerCount).sum ≠ 0 := by norm_num [exKpi]
  have h2 := (weighted_spend_kpi_global exKpi).2.1 h1
  have h3 := (weighted_spend_kpi_global exZero).2.2 (by norm_num [exZero])
  refine ⟨h1, ?_, h3⟩
  rw [h2]
  norm_num [exKpi]

/-! ## C10: missing-city rows are counted by KPIs but never selectable -/

/-- C10: rows with a null CustLocation are invisible to every derived view —
every row of `fdf_base` (hence of `fdf`, the pivots and the export) has a
non-null city, and the selectable city list is built from non-null values
only — while the KPI scalar `totalCustomers` sums over all rows, splitting
as the non-null part plus the null part that no city selection can reach. -/
theorem missing_city_rows_invariant (df : List Row) (cs : List String) (ks : List Int)
    (t : Option Nat) (fs : FilterState) :
    (∀ r ∈ fdf_base df cs ks t, r.custLocation.isSome) ∧
    (∀ r ∈ fdf df fs, r.custLocation.isSome) ∧
    (∀ c ∈ all_cities df, ∃ r ∈ df, r.custLocation = some c) ∧
    totalCustomers df =
      totalCustomers (df.filter (fun r => r.custLocation.isSome)) +
        totalCustomers (df.filter (fun r => !r.custLocation.isSome)) := by
  refine ⟨fun r h => isSome_of_mem_fdf_base h, fun r h => ?_, fun c h => ?_, ?_⟩
  · unfold fdf fdf_page at h
    by_cases hs : fs.show_all
    · rw [if_pos hs] at h
      exact isSome_of_mem_fdf_base h
    · rw [if_neg hs] at h
      exact isSome_of_mem_fdf_base (List.mem_filter.mp h).1
  · exact List.mem_filterMap.mp (mem_uniqueSorted.mp h)
  · exact (sum_map_filter_add df (fun r => r.custLocation.isSome) Row.customerCount).symm

/-- Witness for C10: on `exMiss` the KPI counts 8 customers while the only
offered city is A; selecting every offered city and cluster still excludes
the 5 customers of the null-city row from the filtered view. -/
theorem missing_city_rows_invariant_witness :
    totalCustomers exMiss = 8 ∧
    all_cities exMiss = ["A"] ∧
    fdf_base exMiss (all_cities exMiss) [0] none = [rowMissA] ∧
    (∀ r ∈ fdf_base exMiss (all_cities exMiss) [0] none, r.custLocation.isSome) := by
  refine ⟨by norm_num [totalCustomers, exMiss, rowNull, rowMissA], ?_, ?_, ?_⟩
  · simp [all_cities, uniqueSorted, List.insertionSort, List.orderedInsert, List.dedup,
      List.pwFilter, exMiss, rowNull, rowMissA]
  · simp [all_cities, uniqueSorted, List.insertionSort, List.orderedInsert, List.dedup,
      List.pwFilter, exMiss, rowNull, rowMissA, fdf_base, fdf_pre, cityIn]
  · exact (missing_city_rows_invariant exMiss (all_cities exMiss) [0] none
      ⟨[], [], none, 1, 1, true⟩).1

/-! ## C7: min-max normalization of the city profile -/

theorem foldl_min_le_init : ∀ (xs : List ℚ) (b : ℚ), xs.foldl min b ≤ b := by
  intro xs
  induction xs with
  | nil => intro b; exact le_refl b
  | cons x xs ih => intro b; exact le_trans (ih (min b x)) (min_le_left b x)

theorem foldl_min_le_mem : ∀ (xs : List ℚ) (b a : ℚ), a ∈ xs → xs.foldl min b ≤ a := by
  intro xs
  induction xs with
  | nil => intro b a ha; cases ha
  | cons x xs ih =>
    intro b a ha
    rcases List.mem_cons.mp ha with rfl | ha
    · exact le_trans (foldl_min_le_init xs (min b a)) (min_le_right b a)
    · exact ih (min b x) a ha

theorem init_le_foldl_max : ∀ (xs : List ℚ) (b : ℚ), b ≤ xs.foldl max b := by
  intro xs
  induction xs with
  | nil => intro b; exact le_refl b
  | cons x xs ih => intro b; exact le_trans (le_max_left b x) (ih (max b x))

theorem mem_le_foldl_max : ∀ (xs : List ℚ) (b a : ℚ), a ∈ xs → a ≤ xs.foldl max b := by
  intro xs
  induction xs with
  | nil => intro b a ha; cases ha
  | cons x xs ih =>
    intro b a ha
    rcases List.mem_cons.mp ha with rfl | ha
    · exact le_trans (le_max_right b a) (init_le_foldl_max xs (max b a))
    · exact ih (max b x) a ha

theorem listMin_le_of_mem {a : ℚ} {l : List ℚ} (h : a ∈ l) : listMin l ≤ a := by
  match l with
  | [] => cases h
  | x :: xs =>
    rcases List.mem_cons.mp h with rfl | h
    · exact foldl_min_le_init xs a
    · exact foldl_min_le_mem xs x a h

theorem le_listMax_of_mem {a : ℚ} {l : List ℚ} (h : a ∈ l) : a ≤ listMax l := by
  match l with
  | [] => cases h
  | x :: xs =>
    rcases List.mem_cons.mp h with rfl | h
    · exact init_le_foldl_max xs a
    · exact mem_le_foldl_max xs x a h

/-- C7: the per-metric min-max normalization of the city profile.  When the
column maximum exceeds the minimum, every normalized value lies in [0,1],
a city attaining the maximum is mapped to 1 and a city attaining the
minimum to 0; when maximum equals minimum every value is exactly 1/2, with
no undefined result. -/
theorem prof_norm_bounds (rows : List Row) (f : Row → ℚ) :
    (listMin ((city_profile rows f).map Prod.snd) <
        listMax ((city_profile rows f).map Prod.snd) →
      (∀ q ∈ prof_norm rows f, 0 ≤ q.2 ∧ q.2 ≤ 1) ∧
      (∀ p ∈ city_profile rows f,
        p.2 = listMax ((city_profile rows f).map Prod.snd) →
          (p.1, (1 : ℚ)) ∈ prof_norm rows f) ∧
      (∀ p ∈ city_profile rows f,
        p.2 = listMin ((city_profile rows f).map Prod.snd) →
          (p.1, (0 : ℚ)) ∈ prof_norm rows f)) ∧
    (listMax ((city_profile rows f).map Prod.snd) =
        listMin ((city_profile rows f).map Prod.snd) →
      ∀ q ∈ prof_norm rows f, q.2 = 1 / 2) := by
  set prof := city_profile rows f with hprof
  set mn := listMin (prof.map Prod.snd) with hmn
  set mx := listMax (prof.map Prod.snd) with hmx
  constructor
  · intro hlt
    have hrng : mx - mn ≠ 0 := sub_ne_zero.mpr (ne_of_gt hlt)
    have hun : prof_norm rows f = prof.map (fun p => (p.1, (p.2 - mn) / (mx - mn))) := by
      simp only [prof_norm, ← hprof, ← hmn, ← hmx]
      rw [if_neg hrng]
    refine ⟨?_, ?_, ?_⟩
    · intro q hq
      rw [hun] at hq
      obtain ⟨p, hp, rfl⟩ := List.mem_map.mp hq
      have hv : p.2 ∈ prof.map Prod.snd := List.mem_map_of_mem Prod.snd hp
      have h1 : mn ≤ p.2 := listMin_le_of_mem hv
      have h2 : p.2 ≤ mx := le_listMax_of_mem hv
      constructor
      · exact div_nonneg (by linarith) (by linarith)
      · rw [div_le_one (by linarith)]
        linarith
    · intro p hp hpmax
      rw [hun]
      refine List.mem_map.mpr ⟨p, hp, ?_⟩
      rw [hpmax, div_self hrng]
    · intro p hp hpmin
      rw [hun]
      refine List.mem_map.mpr ⟨p, hp, ?_⟩
      rw [hpmin, sub_self, zero_div]
  · intro heq q hq
    have hun : prof_norm rows f = prof.map (fun p => (p.1, (1 : ℚ) / 2)) := by
      simp only [prof_norm, ← hprof, ← hmn, ← hmx]
      rw [if_pos (sub_eq_zero_of_eq heq)]
    rw [hun] at hq
    obtain ⟨p, _, rfl⟩ := List.mem_map.mp hq
    rfl

theorem strAB : ("A" : String) ≤ "B" := by simp <;> decide

/-- Two cities with distinct mean spend (10 for A, 30 for B). -/
def exProf : List Row :=
  [⟨some "A", 0, 1, 0, 0, 0, 0, 10⟩, ⟨some "B", 0, 1, 0, 0, 0, 0, 30⟩]

/-- Two cities with identical mean spend. -/
def exProfEq : List Row :=
  [⟨some "A", 0, 1, 0, 0, 0, 0, 10⟩, ⟨some "B", 0, 1, 0, 0, 0, 0, 10⟩]

/-- Witness for C7: with city means 10 and 30 the normalized profile maps
the maximum city to 1 and the minimum city to 0, and with equal means every
normalized value is 1/2. -/
theorem prof_norm_bounds_witness :
    listMin ((city_profile exProf Row.avgTotalMonetary).map Prod.snd) <
      listMax ((city_profile exProf Row.avgTotalMonetary).map Prod.snd) ∧
    ("B", (1 : ℚ)) ∈ prof_norm exProf Row.avgTotalMonetary ∧
    ("A", (0 : ℚ)) ∈ prof_norm exProf Row.avgTotalMonetary ∧
    (∀ q ∈ prof_norm exProfEq Row.avgTotalMonetary, q.2 = 1 / 2) := by
  have hcp : city_profile exProf Row.avgTotalMonetary = [("A", 10), ("B", 30)] := by
    simp [city_profile, candidate_cities, uniqueSorted, List.insertionSort, List.orderedInsert,
      List.dedup, List.pwFilter, cityGroup, exProf, eq_true strAB] <;> norm_num
  have hmn : listMin ((city_profile exProf Row.avgTotalMonetary).map Prod.snd) = 10 := by
    rw [hcp]; norm_num [listMin, min_def]
  have hmx : listMax ((city_profile exProf Row.avgTotalMonetary).map Prod.snd) = 30 := by
    rw [hcp]; norm_num [listMax, max_def]
  have hlt : listMin ((city_profile exProf Row.avgTotalMonetary).map Prod.snd) <
      listMax ((city_profile exProf Row.avgTotalMonetary).map Prod.snd) := by
    rw [hmn, hmx]; norm_num
  have h := prof_norm_bounds exProf Row.avgTotalMonetary
  refine ⟨hlt, ?_, ?_, ?_⟩
  · exact (h.1 hlt).2.1 ("B", 30) (by rw [hcp]; simp) (by rw [hmx])
  · exact (h.1 hlt).2.2 ("A", 10) (by rw [hcp]; simp) (by rw [hmn])
  · have hcp2 : city_profile exProfEq Row.avgTotalMonetary = [("A", 10), ("B", 10)] := by
      simp [city_profile, candidate_cities, uniqueSorted, List.insertionSort,
        List.orderedInsert, List.dedup, List.pwFilter, cityGroup, exProfEq, eq_true strAB] <;>
        norm_num
    refine (prof_norm_bounds exProfEq Row.avgTotalMonetary).2 ?_
    rw [hcp2]
    norm_num [listMin, listMax, min_def, max_def]

/-! ## C8: the per-cluster segment summary -/

theorem abs_roundHalfEven_sub (q : ℚ) : |(roundHalfEven q : ℚ) - q| ≤ 1 / 2 := by
  unfold roundHalfEven
  by_cases h : q - (⌊q⌋ : ℚ) = 1 / 2
  · rw [if_pos h]
    by_cases h2 : ⌊q⌋ % 2 = 0
    · rw [if_pos h2]
      have he : (⌊q⌋ : ℚ) - q = -(1 / 2) := by linarith
      rw [he, abs_neg, abs_of_pos (by norm_num : (0 : ℚ) < 1 / 2)]
    · rw [if_neg h2]
      have he : ((⌊q⌋ + 1 : ℤ) : ℚ) - q = 1 / 2 := by push_cast; linarith
      rw [he, abs_of_pos (by norm_num : (0 : ℚ) < 1 / 2)]
  · rw [if_neg h]
    have hb := abs_sub_round q
    rwa [abs_sub_comm] at hb

theorem abs_round2_sub (q : ℚ) : |round2 q - q| ≤ 1 / 200 := by
  unfold round2
  have h := abs_roundHalfEven_sub (q * 100)
  have he : (roundHalfEven (q * 100) : ℚ) / 100 - q =
      ((roundHalfEven (q * 100) : ℚ) - q * 100) / 100 := by ring
  rw [he, abs_div, abs_of_pos (by norm_num : (0 : ℚ) < 100)]
  have hd := (div_le_div_right (by norm_num : (0 : ℚ) < 100)).mpr h
  calc |(roundHalfEven (q * 100) : ℚ) - q * 100| / 100 ≤ (1 / 2) / 100 := hd
    _ = 1 / 200 := by norm_num

theorem round2_intCast (z : ℤ) : round2 (z : ℚ) = z := by
  unfold round2 roundHalfEven
  rw [show ((z : ℚ) * 100) = ((z * 100 : ℤ) : ℚ) by push_cast; ring]
  rw [Int.floor_intCast, round_intCast, sub_self]
  rw [if_neg (by norm_num : ¬((0 : ℚ) = 1 / 2))]
  push_cast
  ring

/-- C8: `seg_summary` groups the rows by cluster (one output row per
distinct cluster id, ascending), sums CustomerCount within the group and
takes the unweighted mean of each other metric, rounding every aggregated
cell to two decimal places; the rounding moves a value by at most 1/200 and
is the identity on integer values (so integral CustomerCount sums are
exact). -/
theorem seg_summary_grouping (rows : List Row) :
    ((seg_summary rows).map SegRow.cluster = clustersOf rows) ∧
    (∀ s ∈ seg_summary rows,
      s.customerCount = round2 (((clusterGroup rows s.cluster).map Row.customerCount).sum) ∧
      s.avgAge = round2 (groupMean (clusterGroup rows s.cluster) Row.avgAge) ∧
      s.avgFrequency = round2 (groupMean (clusterGroup rows s.cluster) Row.avgFrequency) ∧
      s.avgTotalMonetary =
        round2 (groupMean (clusterGroup rows s.cluster) Row.avgTotalMonetary) ∧
      s.avgRecency = round2 (groupMean (clusterGroup rows s.cluster) Row.avgRecency)) ∧
    (∀ q : ℚ, |round2 q - q| ≤ 1 / 200) ∧
    (∀ z : ℤ, round2 (z : ℚ) = z) := by
  refine ⟨?_, ?_, abs_round2_sub, round2_intCast⟩
  · rw [seg_summary, List.map_map]
    exact List.map_id _
  · intro s hs
    simp only [seg_summary, List.mem_map] at hs
    obtain ⟨k, _, rfl⟩ := hs
    exact ⟨rfl, rfl, rfl, rfl, rfl⟩

/-- Two rows of cluster 1 with counts 10 and 20 and spends 50 and 70. -/
def exSeg : List Row :=
  [⟨some "A", 1, 10, 0, 0, 0, 0, 50⟩, ⟨some "B", 1, 20, 0, 0, 0, 0, 70⟩]

/-- Witness for C8: the summary of `exSeg` has one row for cluster 1 with
CustomerCount 30 and AvgTotalMonetary 60 (the unweighted mean of 50 and
70). -/
theorem seg_summary_grouping_witness :
    (seg_summary exSeg).map SegRow.cluster = clustersOf exSeg ∧
    seg_summary exSeg = [⟨1, 30, 0, 0, 60, 0⟩] := by
  refine ⟨(seg_summary_grouping exSeg).1, ?_⟩
  have h30 : round2 (30 : ℚ) = 30 := by simpa using round2_intCast 30
  have h60 : round2 (60 : ℚ) = 60 := by simpa using round2_intCast 60
  have h0 : round2 (0 : ℚ) = 0 := by simpa using round2_intCast 0
  norm_num [seg_summary, clustersOf, clusterGroup, groupMean, List.insertionSort,
    List.orderedInsert, List.dedup, List.pwFilter, exSeg, h30, h60, h0]

/-! ## C9: strategy suggestions per cluster -/

theorem zip_map_self {α β : Type} (f : α → β) :
    ∀ l : List α, (l.map f).zip l = l.map (fun a => (f a, a)) := by
  intro l
  induction l with
  | nil => rfl
  | cons a l ih => simp [ih]

/-- C9: with a nonempty segment summary, `recs` emits exactly one tag per
summary row, walking the rows in descending AvgTotalMonetary order, and the
tag is determined by comparing the row's spend and frequency against the
medians of the summary columns with a greater-or-equal threshold: both
reached gives premium, spend only value-add, frequency only cross-sell,
neither re-engagement. -/
theorem strategy_classification (s : List SegRow) (hs : s ≠ []) :
    ∃ t : List SegRow, t.Perm s ∧ List.Sorted spendDesc t ∧
      (recs s).length = s.length ∧
      ∀ pr ∈ (recs s).zip t,
        pr.1.1 = pr.2.cluster ∧
        (pr.1.2 = Strategy.premium ↔
          medianQ (s.map SegRow.avgTotalMonetary) ≤ pr.2.avgTotalMonetary ∧
          medianQ (s.map SegRow.avgFrequency) ≤ pr.2.avgFrequency) ∧
        (pr.1.2 = Strategy.valueAdd ↔
          medianQ (s.map SegRow.avgTotalMonetary) ≤ pr.2.avgTotalMonetary ∧
          ¬ medianQ (s.map SegRow.avgFrequency) ≤ pr.2.avgFrequency) ∧
        (pr.1.2 = Strategy.crossSell ↔
          ¬ medianQ (s.map SegRow.avgTotalMonetary) ≤ pr.2.avgTotalMonetary ∧
          medianQ (s.map SegRow.avgFrequency) ≤ pr.2.avgFrequency) ∧
        (pr.1.2 = Strategy.reEngagement ↔
          ¬ medianQ (s.map SegRow.avgTotalMonetary) ≤ pr.2.avgTotalMonetary ∧
          ¬ medianQ (s.map SegRow.avgFrequency) ≤ pr.2.avgFrequency) := by
  have hne : s.isEmpty = false := by
    cases s with
    | nil => exact absurd rfl hs
    | cons a l => rfl
  have hrecs : recs s = (List.insertionSort spendDesc s).map (fun r =>
      (r.cluster,
        if medianQ (s.map SegRow.avgTotalMonetary) ≤ r.avgTotalMonetary ∧
            medianQ (s.map SegRow.avgFrequency) ≤ r.avgFrequency then Strategy.premium
        else if medianQ (s.map SegRow.avgTotalMonetary) ≤ r.avgTotalMonetary then
          Strategy.valueAdd
        else if medianQ (s.map SegRow.avgFrequency) ≤ r.avgFrequency then Strategy.crossSell
        else Strategy.reEngagement)) := by
    rw [recs, if_neg]
    simp [hne]
  refine ⟨List.insertionSort spendDesc s, List.perm_insertionSort _ _,
    List.sorted_insertionSort _ _, ?_, ?_⟩
  · rw [hrecs, List.length_map, List.length_insertionSort]
  · rw [hrecs, zip_map_self]
    intro pr hpr
    obtain ⟨r, _, rfl⟩ := List.mem_map.mp hpr
    refine ⟨rfl, ?_, ?_, ?_, ?_⟩ <;>
      by_cases h1 : medianQ (s.map SegRow.avgTotalMonetary) ≤ r.avgTotalMonetary <;>
      by_cases h2 : medianQ (s.map SegRow.avgFrequency) ≤ r.avgFrequency <;>
      simp [h1, h2]

/-- A two-row summary: cluster 2 has spend 100 and frequency 5, cluster 1
has spend 10 and frequency 1.  The medians are 55 and 3. -/
def exStrat : List SegRow := [⟨1, 1, 0, 1, 10, 0⟩, ⟨2, 1, 0, 5, 100, 0⟩]

/-- Witness for C9: on `exStrat` the suggestions list cluster 2 first
(premium: spend and frequency at or above the medians) then cluster 1
(re-engagement: both below). -/
theorem strategy_classification_witness :
    recs exStrat = [(2, Strategy.premium), (1, Strategy.reEngagement)] ∧
    (∃ t : List SegRow, t.Perm exStrat ∧ List.Sorted spendDesc t ∧
      (recs exStrat).length = exStrat.length ∧
      ∀ pr ∈ (recs exStrat).zip t,
        pr.1.1 = pr.2.cluster ∧
        (pr.1.2 = Strategy.premium ↔
          medianQ (exStrat.map SegRow.avgTotalMonetary) ≤ pr.2.avgTotalMonetary ∧
          medianQ (exStrat.map SegRow.avgFrequency) ≤ pr.2.avgFrequency) ∧
        (pr.1.2 = Strategy.valueAdd ↔
          medianQ (exStrat.map SegRow.avgTotalMonetary) ≤ pr.2.avgTotalMonetary ∧
          ¬ medianQ (exStrat.map SegRow.avgFrequency) ≤ pr.2.avgFrequency) ∧
        (pr.1.2 = Strategy.crossSell ↔
          ¬ medianQ (exStrat.map SegRow.avgTotalMonetary) ≤ pr.2.avgTotalMonetary ∧
          medianQ (exStrat.map SegRow.avgFrequency) ≤ pr.2.avgFrequency) ∧
        (pr.1.2 = Strategy.reEngagement ↔
          ¬ medianQ (exStrat.map SegRow.avgTotalMonetary) ≤ pr.2.avgTotalMonetary ∧
          ¬ medianQ (exStrat.map SegRow.avgFrequency) ≤ pr.2.avgFrequency)) := by
  constructor
  · norm_num [recs, medianQ, List.insertionSort, List.orderedInsert, spendDesc, exStrat,
      List.getD]
  · exact strategy_classification exStrat (by simp [exStrat])

/-! ## C6: idempotence of the filter -/

theorem length_city_totals_all (rows : List Row) :
    (city_totals_all rows).length = (candidate_cities rows).length := by
  unfold city_totals_all
  rw [List.length_insertionSort, List.length_map]
  rfl

theorem mem_pair_city_totals_all {rows : List Row} {c : String}
    (hc : c ∈ candidate_cities rows) :
    (c, cityCount rows c) ∈ city_totals_all rows := by
  unfold city_totals_all
  rw [(List.perm_insertionSort _ _).mem_iff]
  exact List.mem_map_of_mem _ hc

theorem mem_keep_of_all {rows : List Row} {n : Nat}
    (h : (candidate_cities rows).length ≤ n) {c : String}
    (hc : c ∈ candidate_cities rows) : c ∈ keep_cities rows n := by
  unfold keep_cities
  rw [List.take_of_length_le (by rw [length_city_totals_all]; exact h)]
  exact List.mem_map_of_mem Prod.fst (mem_pair_city_totals_all hc)

theorem length_keep_le (rows : List Row) (n : Nat) : (keep_cities rows n).length ≤ n := by
  unfold keep_cities
  rw [List.length_map, List.length_take]
  exact min_le_left _ _

theorem nodup_candidate (rows : List Row) : (candidate_cities rows).Nodup :=
  nodup_uniqueSorted _

/-- C6: applying the city/cluster/Top-N filter to its own output with the
same arguments returns the output unchanged — every row already passes the
city and cluster membership tests, and with Top-N active the output has at
most `n` distinct cities, all of which survive a second Top-N cut. -/
theorem apply_filters_idempotent (df : List Row) (cs : List String) (ks : List Int)
    (t : Option Nat) :
    fdf_base (fdf_base df cs ks t) cs ks t = fdf_base df cs ks t := by
  have hpre : fdf_pre (fdf_base df cs ks t) cs ks = fdf_base df cs ks t := by
    apply List.filter_eq_self.mpr
    intro r hr
    have h2 := mem_fdf_pre.mp (mem_of_mem_fdf_base hr)
    simp [h2.2.1, h2.2.2]
  cases t with
  | none => simpa [fdf_base] using hpre
  | some n =>
    by_cases hn : n = 0
    · simpa [fdf_base, hn] using hpre
    · have hdef : fdf_base df cs ks (some n) =
          (fdf_pre df cs ks).filter
            (fun r => cityIn r (keep_cities (fdf_pre df cs ks) n)) := by
        simp [fdf_base, hn]
      have hstep : fdf_base (fdf_base df cs ks (some n)) cs ks (some n) =
          (fdf_base df cs ks (some n)).filter
            (fun r => cityIn r (keep_cities (fdf_base df cs ks (some n)) n)) := by
        conv_lhs => rw [fdf_base]
        rw [if_neg hn, hpre]
      have hsubset : candidate_cities (fdf_base df cs ks (some n)) ⊆
          keep_cities (fdf_pre df cs ks) n := by
        intro c hc
        obtain ⟨r, hr, hrc⟩ := mem_candidate_cities.mp hc
        rw [hdef] at hr
        obtain ⟨c2, hc2, hmem⟩ := cityIn_iff.mp (List.mem_filter.mp hr).2
        rw [hrc] at hc2
        rwa [← Option.some_inj.mp hc2] at hmem
      have hlen : (candidate_cities (fdf_base df cs ks (some n))).length ≤ n :=
        le_trans (((nodup_candidate _).subperm hsubset).length_le)
          (length_keep_le _ n)
      rw [hstep]
      apply List.filter_eq_self.mpr
      intro r hr
      obtain ⟨c, hcity⟩ := Option.isSome_iff_exists.mp (isSome_of_mem_fdf_base hr)
      have hc : c ∈ candidate_cities (fdf_base df cs ks (some n)) :=
        mem_candidate_cities.mpr ⟨r, hr, hcity⟩
      exact cityIn_iff.mpr ⟨c, hcity, mem_keep_of_all hlen hc⟩

/-! ## C5: behavior of the pagination operation -/

theorem nat_ceil_div (a b : Nat) (hb : 0 < b) :
    Nat.ceil ((a : ℚ) / (b : ℚ)) = (a + b - 1) / b := by
  have hbq : (0 : ℚ) < (b : ℚ) := by exact_mod_cast hb
  rcases Nat.eq_zero_or_pos a with ha | ha
  · subst ha
    have h0 : (b - 1) / b = 0 := Nat.div_eq_of_lt (by omega)
    simp [h0]
  · have hdm := Nat.div_add_mod (a + b - 1) b
    have hml : (a + b - 1) % b < b := Nat.mod_lt _ hb
    obtain ⟨n, hn⟩ : ∃ n, (a + b - 1) / b = n := ⟨_, rfl⟩
    rw [hn] at hdm ⊢
    have hub : a ≤ b * n := by omega
    have hnpos : 0 < n := by
      by_contra h0
      have hz : n = 0 := by omega
      rw [hz, Nat.mul_zero] at hub
      omega
    obtain ⟨m, rfl⟩ : ∃ m, n = m + 1 := ⟨n - 1, by omega⟩
    rw [Nat.mul_succ] at hdm hub
    rw [Nat.ceil_eq_iff (by omega)]
    constructor
    · rw [Nat.add_sub_cancel, lt_div_iff hbq]
      have hmb : m * b < a := by rw [mul_comm]; omega
      exact_mod_cast hmb
    · rw [div_le_iff hbq]
      have h2 : a ≤ (m + 1) * b := by rw [mul_comm, Nat.mul_succ]; exact hub
      exact_mod_cast h2

theorem cityIn_nil (r : Row) : cityIn r [] = false := by
  cases h : r.custLocation <;> simp [cityIn, h]

theorem filter_cityIn_nil (l : List Row) : l.filter (fun r => cityIn r []) = [] := by
  induction l with
  | nil => rfl
  | cons a l ih => simp [List.filter_cons, cityIn_nil, ih]

/-- C5: the pagination operation.  With show-all the result is all rows on a
single page.  Otherwise the page count is the ceiling of distinct-city count
over page size with a minimum of one, the effective page index is the
requested one clamped to [1, totalPages], the page rows are exactly the
filtered rows whose city lies in the corresponding slice of the ascending
distinct city list, and with no distinct city there is one page with no
rows. -/
theorem paginate_cities_behavior (rows : List Row) (sz p : Nat) (hsz : 0 < sz) :
    paginateCities rows sz p true = (rows, 1) ∧
    (paginateCities rows sz p false).2 =
      max 1 (Nat.ceil (((candidate_cities rows).length : ℚ) / (sz : ℚ))) ∧
    (1 ≤ max 1 (min p (paginateCities rows sz p false).2) ∧
      max 1 (min p (paginateCities rows sz p false).2) ≤
        (paginateCities rows sz p false).2) ∧
    (∀ r, r ∈ (paginateCities rows sz p false).1 ↔
      r ∈ rows ∧ ∃ c, r.custLocation = some c ∧
        c ∈ ((candidate_cities rows).drop
          ((max 1 (min p (total_pages rows sz)) - 1) * sz)).take sz) ∧
    (candidate_cities rows = [] →
      (paginateCities rows sz p false).2 = 1 ∧ (paginateCities rows sz p false).1 = []) := by
  have hsnd : (paginateCities rows sz p false).2 = total_pages rows sz := rfl
  have hfst : (paginateCities rows sz p false).1 =
      rows.filter (fun r => cityIn r (current_cities rows sz p)) := rfl
  have hcc : current_cities rows sz p =
      ((candidate_cities rows).drop
        ((max 1 (min p (total_pages rows sz)) - 1) * sz)).take sz := rfl
  refine ⟨rfl, ?_, ?_, ?_, ?_⟩
  · rw [hsnd, nat_ceil_div _ _ hsz]
    rfl
  · rw [hsnd]
    have h1 : 1 ≤ total_pages rows sz := le_max_left _ _
    omega
  · intro r
    rw [hfst, List.mem_filter]
    constructor
    · rintro ⟨h1, h2⟩
      obtain ⟨c, hc, hmem⟩ := cityIn_iff.mp h2
      rw [hcc] at hmem
      exact ⟨h1, c, hc, hmem⟩
    · rintro ⟨h1, c, hc, hmem⟩
      rw [← hcc] at hmem
      exact ⟨h1, cityIn_iff.mpr ⟨c, hc, hmem⟩⟩
  · intro h
    have hlen : (candidate_cities rows).length = 0 := by rw [h]; rfl
    have hd : ((candidate_cities rows).length + sz - 1) / sz = 0 := by
      rw [hlen]
      exact Nat.div_eq_of_lt (by omega)
    have h2 : total_pages rows sz = 1 := by
      unfold total_pages
      rw [hd]
      omega
    refine ⟨by rw [hsnd, h2], ?_⟩
    rw [hfst]
    have hnil : current_cities rows sz p = [] := by
      rw [hcc, h]
      simp
    rw [hnil]
    exact filter_cityIn_nil rows

/-- Witness for C5: on the two-city dataset `exProf` with one city per page,
there are two pages and a requested page index 5 is clamped to page 2,
which shows exactly the rows of the second city. -/
theorem paginate_cities_behavior_witness :
    (0 : Nat) < 1 ∧
    (paginateCities exProf 1 5 false).2 = 2 ∧
    (paginateCities exProf 1 5 false).1 = [⟨some "B", 0, 1, 0, 0, 0, 0, 30⟩] ∧
    (paginateCities exProf 1 5 true = (exProf, 1) ∧
      (paginateCities exProf 1 5 false).2 =
        max 1 (Nat.ceil (((candidate_cities exProf).length : ℚ) / ((1 : Nat) : ℚ))) ∧
      (1 ≤ max 1 (min 5 (paginateCities exProf 1 5 false).2) ∧
        max 1 (min 5 (paginateCities exProf 1 5 false).2) ≤
          (paginateCities exProf 1 5 false).2) ∧
      (∀ r, r ∈ (paginateCities exProf 1 5 false).1 ↔
        r ∈ exProf ∧ ∃ c, r.custLocation = some c ∧
          c ∈ ((candidate_cities exProf).drop
            ((max 1 (min 5 (total_pages exProf 1)) - 1) * 1)).take 1) ∧
      (candidate_cities exProf = [] →
        (paginateCities exProf 1 5 false).2 = 1 ∧
          (paginateCities exProf 1 5 false).1 = [])) := by
  refine ⟨Nat.one_pos, ?_, ?_, paginate_cities_behavior exProf 1 5 Nat.one_pos⟩
  · simp [paginateCities, total_pages, candidate_cities, uniqueSorted, List.insertionSort,
      List.orderedInsert, List.dedup, List.pwFilter, exProf, eq_true strAB]
  · simp [paginateCities, fdf_page, current_cities, total_pages, candidate_cities,
      uniqueSorted, List.insertionSort, List.orderedInsert, List.dedup, List.pwFilter,
      exProf, eq_true strAB, cityIn, List.filter_cons]

/-! ## C4: what the download button serializes -/

theorem strBC : ("B" : String) ≤ "C" := by simp <;> decide

theorem chAB : (['A'] : List Char) ≤ ['B'] := by decide

theorem chBC : (['B'] : List Char) ≤ ['C'] := by decide

theorem chCD : (['C'] : List Char) ≤ ['D'] := by decide

theorem chDE : (['D'] : List Char) ≤ ['E'] := by decide

theorem chEF : (['E'] : List Char) ≤ ['F'] := by decide

theorem strCD : ("C" : String) ≤ "D" := by simp <;> decide

theorem strDE : ("D" : String) ≤ "E" := by simp <;> decide

theorem strEF : ("E" : String) ≤ "F" := by simp <;> decide

/-- A one-customer row of the given city in cluster 0. -/
def rowOf (c : String) : Row := ⟨some c, 0, 1, 0, 0, 0, 0, 0⟩

/-- Six cities, one row each. -/
def exPag : List Row :=
  [rowOf "A", rowOf "B", rowOf "C", rowOf "D", rowOf "E", rowOf "F"]

/-- Every city and cluster selected, no Top-N, five cities per page, page 1,
pagination active — a state the sidebar can produce. -/
def fsPag : FilterState := ⟨["A", "B", "C", "D", "E", "F"], [0], none, 5, 1, false⟩

/-- The same selection with the show-all override on. -/
def fsAll : FilterState := ⟨["A", "B", "C", "D", "E", "F"], [0], none, 5, 1, true⟩

/-- Counterexample to C4 as stated: with six cities, five cities per page
and page 1 active, the row of city F passes the city/cluster filter but is
absent from the serialized export, so the export does not contain every
filtered row regardless of the pagination page. -/
theorem export_misses_offpage_rows :
    rowOf "F" ∈ fdf_base exPag fsPag.city_sel fsPag.cluster_sel fsPag.topn ∧
    rowOf "F" ∉ export_rows exPag fsPag ∧
    export_rows exPag fsPag ≠ fdf_base exPag fsPag.city_sel fsPag.cluster_sel fsPag.topn := by
  have h1 : fdf_base exPag fsPag.city_sel fsPag.cluster_sel fsPag.topn = exPag := by
    simp [fdf_base, fdf_pre, cityIn, exPag, rowOf, fsPag, List.filter_cons]
  have h2 : export_rows exPag fsPag =
      [rowOf "A", rowOf "B", rowOf "C", rowOf "D", rowOf "E"] := by
    simp [export_rows, fdf, fdf_page, fdf_base, fdf_pre, current_cities, total_pages,
      candidate_cities, uniqueSorted, List.insertionSort, List.orderedInsert, List.dedup,
      List.pwFilter, cityIn, exPag, rowOf, fsPag, List.filter_cons,
      eq_true strAB, eq_true strBC, eq_true strCD, eq_true strDE, eq_true strEF,
      eq_true chAB, eq_true chBC, eq_true chCD, eq_true chDE, eq_true chEF]
  refine ⟨?_, ?_, ?_⟩
  · rw [h1]; simp [exPag]
  · rw [h2]; simp [rowOf]
  · rw [h1, h2]; simp [exPag]

/-- C4 amended: the export serializes exactly `fdf`, the filtered subset
restricted to the current pagination page — with the show-all override it
is the whole city/cluster/Top-N filtered subset, and in general a row is
exported iff it passes the filter and its city is on the current page. -/
theorem export_serializes_paginated_subset (df : List Row) (fs : FilterState) :
    (fs.show_all = true →
      export_rows df fs = fdf_base df fs.city_sel fs.cluster_sel fs.topn) ∧
    (∀ r, r ∈ export_rows df fs ↔
      r ∈ fdf_base df fs.city_sel fs.cluster_sel fs.topn ∧
        (fs.show_all = true ∨
          cityIn r (current_cities (fdf_base df fs.city_sel fs.cluster_sel fs.topn)
            fs.page_size fs.page) = true)) := by
  constructor
  · intro h
    unfold export_rows fdf fdf_page
    rw [h]
    simp
  · intro r
    unfold export_rows fdf fdf_page
    by_cases h : fs.show_all = true
    · rw [if_pos h]
      simp [h]
    · rw [if_neg h]
      rw [List.mem_filter]
      simp [h]

/-- Witness for the amended C4: with show-all on, the export equals the full
filtered subset, and the membership characterization holds at the concrete
off-page row. -/
theorem export_serializes_paginated_subset_witness :
    export_rows exPag fsAll = fdf_base exPag fsAll.city_sel fsAll.cluster_sel fsAll.topn ∧
    (rowOf "F" ∈ export_rows exPag fsPag ↔
      rowOf "F" ∈ fdf_base exPag fsPag.city_sel fsPag.cluster_sel fsPag.topn ∧
        (fsPag.show_all = true ∨
          cityIn (rowOf "F")
            (current_cities (fdf_base exPag fsPag.city_sel fsPag.cluster_sel fsPag.topn)
              fsPag.page_size fsPag.page) = true)) :=
  ⟨(export_serializes_paginated_subset exPag fsAll).1 rfl,
    (export_serializes_paginated_subset exPag fsPag).2 (rowOf "F")⟩

/-! ## C2: pagination covers the filtered rows exactly -/

/-- Concatenation of the page rows of every page from 1 to totalPages with
the show-all override off, in page order. -/
def all_pages (rows : List Row) (sz : Nat) : List Row :=
  ((List.range (total_pages rows sz)).map
    (fun k => (paginateCities rows sz (k + 1) false).1)).flatten

theorem mem_slice_iff {l : List String} (hnd : l.Nodup) {j : Nat} (hj : j < l.length)
    (k sz : Nat) :
    getElem l j hj ∈ (l.drop (k * sz)).take sz ↔ k * sz ≤ j ∧ j < k * sz + sz := by
  constructor
  · intro h
    obtain ⟨⟨i, hi⟩, hget⟩ := List.mem_iff_get.mp h
    rw [List.get_eq_getElem] at hget
    have hisz : i < sz := by
      have := hi
      rw [List.length_take] at this
      omega
    have hidrop : i < (l.drop (k * sz)).length := by
      have := hi
      rw [List.length_take] at this
      omega
    rw [List.getElem_take] at hget
    rw [List.getElem_drop] at hget
    have hei : k * sz + i = j := (hnd.getElem_inj_iff ..).mp hget
    omega
  · rintro ⟨h1, h2⟩
    have hidrop : j - k * sz < (l.drop (k * sz)).length := by
      rw [List.length_drop]
      omega
    have hitake : j - k * sz < ((l.drop (k * sz)).take sz).length := by
      rw [List.length_take]
      omega
    have hg : getElem ((l.drop (k * sz)).take sz) (j - k * sz) hitake = getElem l j hj := by
      rw [List.getElem_take, List.getElem_drop]
      congr 1
      omega
    rw [← hg]
    exact List.getElem_mem hitake

theorem len_le_total_mul (rows : List Row) (sz : Nat) (hsz : 0 < sz) :
    (candidate_cities rows).length ≤ total_pages rows sz * sz := by
  unfold total_pages
  obtain ⟨q, hq⟩ : ∃ q, ((candidate_cities rows).length + sz - 1) / sz = q := ⟨_, rfl⟩
  have hdm := Nat.div_add_mod ((candidate_cities rows).length + sz - 1) sz
  have hml : ((candidate_cities rows).length + sz - 1) % sz < sz :=
    Nat.mod_lt _ hsz
  rw [hq] at hdm ⊢
  have h1 : (candidate_cities rows).length ≤ sz * q := by omega
  calc (candidate_cities rows).length ≤ sz * q := h1
    _ ≤ sz * max 1 q := Nat.mul_le_mul_left _ (le_max_right 1 q)
    _ = max 1 q * sz := Nat.mul_comm _ _

theorem sum_map_range_zero (f : Nat → Nat) :
    ∀ n : Nat, (∀ k, k < n → f k = 0) → ((List.range n).map f).sum = 0 := by
  intro n
  induction n with
  | zero => intro _; rfl
  | succ m ih =>
    intro h
    rw [List.range_succ, List.map_append, List.sum_append]
    rw [ih (fun k hk => h k (by omega))]
    simp [h m (by omega)]

theorem sum_map_range_single (f : Nat → Nat) :
    ∀ n k0 : Nat, k0 < n → (∀ k, k < n → k ≠ k0 → f k = 0) →
      ((List.range n).map f).sum = f k0 := by
  intro n
  induction n with
  | zero => intro k0 hk; omega
  | succ m ih =>
    intro k0 hk h0
    rw [List.range_succ, List.map_append, List.sum_append]
    by_cases hm : k0 = m
    · subst hm
      rw [sum_map_range_zero f k0 (fun k hkk => h0 k (by omega) (by omega))]
      simp
    · rw [ih k0 (by omega) (fun k hkk hne => h0 k (by omega) hne)]
      simp [h0 m (by omega) (fun he => hm he.symm)]

/-- C2: for a filtered row set, concatenating the page rows of every page
from 1 to totalPages (pagination active, positive page size) is a
permutation of the show-all result — every filtered row appears on exactly
one page, with no duplicates and no omissions. -/
theorem pagination_covers_filtered_rows (df : List Row) (cs : List String) (ks : List Int)
    (t : Option Nat) (sz p : Nat) (hsz : 0 < sz) :
    (all_pages (fdf_base df cs ks t) sz).Perm
      ((paginateCities (fdf_base df cs ks t) sz p true).1) := by
  have hshow : (paginateCities (fdf_base df cs ks t) sz p true).1 = fdf_base df cs ks t := rfl
  rw [hshow, List.perm_iff_count]
  intro a
  unfold all_pages
  rw [List.count_flatten, List.map_map]
  by_cases ha : a ∈ fdf_base df cs ks t
  · obtain ⟨c, hc⟩ := Option.isSome_iff_exists.mp (isSome_of_mem_fdf_base ha)
    have hcc : c ∈ candidate_cities (fdf_base df cs ks t) :=
      mem_candidate_cities.mpr ⟨a, ha, hc⟩
    obtain ⟨⟨j, hj⟩, hget⟩ := List.mem_iff_get.mp hcc
    rw [List.get_eq_getElem] at hget
    have hnd := nodup_candidate (fdf_base df cs ks t)
    have hcover : j / sz < total_pages (fdf_base df cs ks t) sz := by
      rw [Nat.div_lt_iff_lt_mul hsz]
      have := len_le_total_mul (fdf_base df cs ks t) sz hsz
      omega
    have hpage : ∀ k, k < total_pages (fdf_base df cs ks t) sz →
        List.count a ((paginateCities (fdf_base df cs ks t) sz (k + 1) false).1) =
          if k = j / sz then List.count a (fdf_base df cs ks t) else 0 := by
      intro k hk
      have hclamp : max 1 (min (k + 1) (total_pages (fdf_base df cs ks t) sz)) = k + 1 := by
        omega
      have hslice : current_cities (fdf_base df cs ks t) sz (k + 1) =
          ((candidate_cities (fdf_base df cs ks t)).drop (k * sz)).take sz := by
        simp only [current_cities]
        rw [hclamp, Nat.add_sub_cancel]
      have hfst : (paginateCities (fdf_base df cs ks t) sz (k + 1) false).1 =
          (fdf_base df cs ks t).filter
            (fun r => cityIn r (current_cities (fdf_base df cs ks t) sz (k + 1))) := rfl
      have hdiv : k = j / sz ↔ (k * sz ≤ j ∧ j < k * sz + sz) := by
        constructor
        · rintro rfl
          refine ⟨Nat.div_mul_le_self j sz, ?_⟩
          have hdm := Nat.div_add_mod j sz
          have hml : j % sz < sz := Nat.mod_lt _ hsz
          have hcomm : (j / sz) * sz = sz * (j / sz) := Nat.mul_comm _ _
          omega
        · rintro ⟨h1, h2⟩
          exact (Nat.div_eq_of_lt_le h1 (by rw [Nat.succ_mul]; omega)).symm
      by_cases hkk : k = j / sz
      · rw [if_pos hkk, hfst]
        apply List.count_filter
        show cityIn a (current_cities (fdf_base df cs ks t) sz (k + 1)) = true
        rw [hslice]
        apply cityIn_iff.mpr
        refine ⟨c, hc, ?_⟩
        rw [← hget]
        exact (mem_slice_iff hnd hj k sz).mpr (hdiv.mp hkk)
      · rw [if_neg hkk, hfst]
        apply List.count_eq_zero.mpr
        intro hmem
        have hcin := (List.mem_filter.mp hmem).2
        obtain ⟨c2, hc2, hmem2⟩ := cityIn_iff.mp hcin
        rw [hc] at hc2
        have hcc2 : c2 = c := (Option.some_inj.mp hc2).symm
        subst hcc2
        rw [hslice, ← hget] at hmem2
        exact hkk (hdiv.mpr ((mem_slice_iff hnd hj k sz).mp hmem2))
    rw [sum_map_range_single _ _ (j / sz) hcover
      (fun k hk hne => by
        simp only [Function.comp_apply]
        rw [hpage k hk, if_neg hne])]
    simp only [Function.comp_apply]
    rw [hpage (j / sz) hcover, if_pos rfl]
  · rw [List.count_eq_zero.mpr ha]
    apply sum_map_range_zero
    intro k hk
    simp only [Function.comp_apply]
    apply List.count_eq_zero.mpr
    intro hmem
    exact ha (List.mem_filter.mp hmem).1

/-- Witness for C2: two cities with one city per page — pages 1 and 2
together reproduce the show-all row set. -/
theorem pagination_covers_filtered_rows_witness :
    (0 : Nat) < 1 ∧
    (all_pages (fdf_base exProf ["A", "B"] [0] none) 1).Perm
      ((paginateCities (fdf_base exProf ["A", "B"] [0] none) 1 3 true).1) :=
  ⟨Nat.one_pos, pagination_covers_filtered_rows exProf ["A", "B"] [0] none 1 3 Nat.one_pos⟩

/-! ## C1: the Top-N city cut -/

/-- The (city, total) pairs that `groupby` hands to `sort_values`: keyed by
the ascending distinct city names. -/
def cityPairs (rows : List Row) : List (String × ℚ) :=
  (candidate_cities rows).map (fun c => (c, cityCount rows c))

theorem city_totals_all_eq_sort (rows : List Row) :
    city_totals_all rows = List.insertionSort totalDesc (cityPairs rows) := rfl

theorem map_fst_cityPairs (rows : List Row) :
    (cityPairs rows).map Prod.fst = candidate_cities rows := by
  rw [cityPairs, List.map_map]
  exact List.map_id _

theorem mem_cityPairs_eq {rows : List Row} {x : String × ℚ} (hx : x ∈ cityPairs rows) :
    x = (x.1, cityCount rows x.1) ∧ x.1 ∈ candidate_cities rows := by
  obtain ⟨c, hc, rfl⟩ := List.mem_map.mp hx
  exact ⟨rfl, hc⟩

theorem pairwise_keys_cityPairs (rows : List Row) :
    (cityPairs rows).Pairwise (fun a b => a.1 < b.1) :=
  List.Pairwise.map _ (fun _ _ h => h) (pairwise_lt_uniqueSorted _)

theorem nodup_cityPairs (rows : List Row) : (cityPairs rows).Nodup :=
  (pairwise_keys_cityPairs rows).imp
    (fun h he => absurd (he ▸ h) (lt_irrefl _))

theorem nodup_city_totals_all (rows : List Row) : (city_totals_all rows).Nodup := by
  rw [city_totals_all_eq_sort]
  exact ((List.perm_insertionSort _ _).nodup_iff).mpr (nodup_cityPairs rows)

theorem pair_sublist_of_indices {α : Type} (l : List α) (i j : Nat)
    (hi : i < l.length) (hj : j < l.length) (hij : i < j) :
    [getElem l i hi, getElem l j hj].Sublist l := by
  have hlen1 : i < (l.take (i + 1)).length := by
    rw [List.length_take]
    omega
  have h1 : getElem l i hi ∈ l.take (i + 1) := by
    have hg : getElem (l.take (i + 1)) i hlen1 = getElem l i hi := List.getElem_take l
    rw [← hg]
    exact List.getElem_mem hlen1
  have hlen2 : j - (i + 1) < (l.drop (i + 1)).length := by
    rw [List.length_drop]
    omega
  have h2 : getElem l j hj ∈ l.drop (i + 1) := by
    have hg : getElem (l.drop (i + 1)) (j - (i + 1)) hlen2 = getElem l j hj := by
      rw [List.getElem_drop]
      congr 1
      omega
    rw [← hg]
    exact List.getElem_mem hlen2
  have hs : ([getElem l i hi] ++ [getElem l j hj]).Sublist (l.take (i + 1) ++ l.drop (i + 1)) :=
    List.Sublist.append (List.singleton_sublist.mpr h1) (List.singleton_sublist.mpr h2)
  rwa [List.take_append_drop] at hs

theorem not_pair_sublist_both {α : Type} :
    ∀ {l : List α}, l.Nodup → ∀ {a b : α}, a ≠ b →
      [a, b].Sublist l → [b, a].Sublist l → False := by
  intro l
  induction l with
  | nil =>
    intro _ a b _ hab _
    cases hab
  | cons x l ih =>
    intro hnd a b hne hab hba
    have hx : x ∉ l := (List.nodup_cons.mp hnd).1
    have hl : l.Nodup := (List.nodup_cons.mp hnd).2
    cases hab with
    | cons _ h1 =>
      cases hba with
      | cons _ h2 => exact ih hl hne h1 h2
      | cons₂ _ h2 => exact hx (h1.subset (by simp))
    | cons₂ _ h1 =>
      cases hba with
      | cons _ h2 => exact hx (h2.subset (by simp))
      | cons₂ _ h2 => exact hne rfl

theorem pair_before_cityPairs {rows : List Row} {x y : String × ℚ}
    (hx : x ∈ cityPairs rows) (hy : y ∈ cityPairs rows) (hlt : x.1 < y.1) :
    [x, y].Sublist (cityPairs rows) := by
  obtain ⟨⟨ix, hix⟩, hgx⟩ := List.mem_iff_get.mp hx
  obtain ⟨⟨iy, hiy⟩, hgy⟩ := List.mem_iff_get.mp hy
  rw [List.get_eq_getElem] at hgx hgy
  have hpk := List.pairwise_iff_getElem.mp (pairwise_keys_cityPairs rows)
  rcases Nat.lt_trichotomy ix iy with h | h | h
  · have hs := pair_sublist_of_indices (cityPairs rows) ix iy hix hiy h
    rwa [hgx, hgy] at hs
  · exfalso
    have hxy : x = y := by
      rw [← hgx, ← hgy]
      congr 1
    exact absurd (hxy ▸ hlt) (lt_irrefl _)
  · exfalso
    have hyx := hpk iy ix hiy hix h
    rw [hgx, hgy] at hyx
    exact absurd (lt_trans hlt hyx) (lt_irrefl _)

theorem pairwise_lex_city_totals_all (rows : List Row) :
    (city_totals_all rows).Pairwise
      (fun a b => b.2 < a.2 ∨ (a.2 = b.2 ∧ a.1 < b.1)) := by
  have hsorted : (city_totals_all rows).Pairwise totalDesc := by
    rw [city_totals_all_eq_sort]
    exact List.sorted_insertionSort _ _
  have hnd := nodup_city_totals_all rows
  rw [List.pairwise_iff_getElem]
  intro i j hi hj hij
  have hts : totalDesc (getElem (city_totals_all rows) i hi)
      (getElem (city_totals_all rows) j hj) :=
    List.pairwise_iff_getElem.mp hsorted i j hi hj hij
  rcases lt_or_eq_of_le hts with hlt | heq
  · exact Or.inl hlt
  · right
    have hxy : getElem (city_totals_all rows) i hi ≠ getElem (city_totals_all rows) j hj := by
      intro he
      exact absurd ((hnd.getElem_inj_iff).mp he) (by omega)
    have hxP : getElem (city_totals_all rows) i hi ∈ cityPairs rows :=
      ((List.perm_insertionSort totalDesc (cityPairs rows)).mem_iff).mp
        (List.getElem_mem hi)
    have hyP : getElem (city_totals_all rows) j hj ∈ cityPairs rows :=
      ((List.perm_insertionSort totalDesc (cityPairs rows)).mem_iff).mp
        (List.getElem_mem hj)
    have hkne : (getElem (city_totals_all rows) i hi).1 ≠
        (getElem (city_totals_all rows) j hj).1 := by
      intro hk
      apply hxy
      rw [(mem_cityPairs_eq hxP).1, (mem_cityPairs_eq hyP).1, hk]
    refine ⟨heq.symm, ?_⟩
    rcases lt_or_gt_of_ne hkne with hlt1 | hgt1
    · exact hlt1
    · exfalso
      have hsub1 : [getElem (city_totals_all rows) j hj,
          getElem (city_totals_all rows) i hi].Sublist (cityPairs rows) :=
        pair_before_cityPairs hyP hxP hgt1
      have hsub2 : [getElem (city_totals_all rows) j hj,
          getElem (city_totals_all rows) i hi].Sublist (city_totals_all rows) :=
        List.pair_sublist_insertionSort (le_of_eq heq.symm) hsub1
      have hsub3 : [getElem (city_totals_all rows) i hi,
          getElem (city_totals_all rows) j hj].Sublist (city_totals_all rows) :=
        pair_sublist_of_indices (city_totals_all rows) i j hi hj hij
      exact not_pair_sublist_both hnd hxy hsub3 hsub2

theorem keep_cities_spec (rows : List Row) (n : Nat) :
    (keep_cities rows n).Nodup ∧
    (keep_cities rows n).length = min n (candidate_cities rows).length ∧
    (∀ c ∈ keep_cities rows n, c ∈ candidate_cities rows) ∧
    (∀ c ∈ keep_cities rows n, ∀ c2 ∈ candidate_cities rows,
      c2 ∉ keep_cities rows n →
        cityCount rows c2 < cityCount rows c ∨
          (cityCount rows c2 = cityCount rows c ∧ c < c2)) := by
  have hperm : (city_totals_all rows).Perm (cityPairs rows) :=
    List.perm_insertionSort totalDesc (cityPairs rows)
  have hmapfst : ((city_totals_all rows).map Prod.fst).Perm (candidate_cities rows) := by
    have := hperm.map Prod.fst
    rwa [map_fst_cityPairs] at this
  have hkeep : keep_cities rows n = ((city_totals_all rows).map Prod.fst).take n := by
    rw [keep_cities, List.map_take]
  have hndfst : ((city_totals_all rows).map Prod.fst).Nodup :=
    (hmapfst.nodup_iff).mpr (nodup_candidate rows)
  have hnd : (keep_cities rows n).Nodup := by
    rw [hkeep]
    exact List.Nodup.sublist (List.take_sublist n _) hndfst
  have hTlen := length_city_totals_all rows
  refine ⟨hnd, ?_, ?_, ?_⟩
  · rw [keep_cities, List.length_map, List.length_take, hTlen]
  · intro c hc
    rw [hkeep] at hc
    exact (hmapfst.mem_iff).mp ((List.take_sublist n _).subset hc)
  · intro c hc c2 hc2 hnot2
    rw [keep_cities] at hc
    obtain ⟨x, hxtake, hxc⟩ := List.mem_map.mp hc
    obtain ⟨⟨i, hitake⟩, hgi⟩ := List.mem_iff_get.mp hxtake
    rw [List.get_eq_getElem] at hgi
    have hilen : i < min n (city_totals_all rows).length := by
      have := hitake
      rwa [List.length_take] at this
    have hiT : i < (city_totals_all rows).length := by omega
    have hgx : getElem (city_totals_all rows) i hiT = x := by
      rw [← hgi]
      exact (List.getElem_take _).symm
    have hxP : x ∈ cityPairs rows := by
      rw [← hgx]
      exact (hperm.mem_iff).mp (List.getElem_mem hiT)
    have hxpair : x = (c, cityCount rows c) := by
      have h1 := (mem_cityPairs_eq hxP).1
      rw [hxc] at h1
      exact h1
    have hyP : (c2, cityCount rows c2) ∈ cityPairs rows :=
      List.mem_map_of_mem _ hc2
    have hyT : (c2, cityCount rows c2) ∈ city_totals_all rows := (hperm.mem_iff).mpr hyP
    obtain ⟨⟨jy, hjy⟩, hgj⟩ := List.mem_iff_get.mp hyT
    rw [List.get_eq_getElem] at hgj
    have hjge : min n (city_totals_all rows).length ≤ jy := by
      by_contra hjlt
      push_neg at hjlt
      apply hnot2
      rw [hkeep]
      have hjtake : jy < ((city_totals_all rows).take n).length := by
        rw [List.length_take]
        omega
      have : getElem ((city_totals_all rows).take n) jy hjtake = (c2, cityCount rows c2) := by
        rw [List.getElem_take]
        exact hgj
      have hmem : (c2, cityCount rows c2) ∈ (city_totals_all rows).take n := by
        rw [← this]
        exact List.getElem_mem hjtake
      rw [← List.map_take]
      exact List.mem_map_of_mem Prod.fst hmem
    have hij : i < jy := by omega
    have hlex := List.pairwise_iff_getElem.mp (pairwise_lex_city_totals_all rows)
      i jy hiT hjy hij
    rw [hgx, hgj, hxpair] at hlex
    rcases hlex with h | ⟨h1, h2⟩
    · exact Or.inl h
    · exact Or.inr ⟨h1.symm, h2⟩

/-- C1 amended: with the Top-N option active (n positive), `fdf_base` keeps
exactly the rows of the filtered set whose city belongs to `keep_cities`,
and `keep_cities` consists of min(n, distinct-city-count) distinct cities
of the filtered set such that every kept city beats every excluded city:
its CustomerCount total is strictly larger, or the totals tie and the kept
city is lexicographically smaller (ties are broken by ascending city name,
the order `groupby` produced — not by first appearance in the rows).  When
fewer than n distinct cities exist, every row is retained. -/
theorem topN_selects_largest_totals (df : List Row) (cs : List String) (ks : List Int)
    (n : Nat) (hn : 0 < n) :
    (∀ r, r ∈ fdf_base df cs ks (some n) ↔
      r ∈ fdf_pre df cs ks ∧ ∃ c, r.custLocation = some c ∧
        c ∈ keep_cities (fdf_pre df cs ks) n) ∧
    (keep_cities (fdf_pre df cs ks) n).Nodup ∧
    (keep_cities (fdf_pre df cs ks) n).length =
      min n (candidate_cities (fdf_pre df cs ks)).length ∧
    (∀ c ∈ keep_cities (fdf_pre df cs ks) n, c ∈ candidate_cities (fdf_pre df cs ks)) ∧
    (∀ c ∈ keep_cities (fdf_pre df cs ks) n,
      ∀ c2 ∈ candidate_cities (fdf_pre df cs ks), c2 ∉ keep_cities (fdf_pre df cs ks) n →
        cityCount (fdf_pre df cs ks) c2 < cityCount (fdf_pre df cs ks) c ∨
          (cityCount (fdf_pre df cs ks) c2 = cityCount (fdf_pre df cs ks) c ∧ c < c2)) ∧
    ((candidate_cities (fdf_pre df cs ks)).length ≤ n →
      fdf_base df cs ks (some n) = fdf_pre df cs ks) := by
  have hn0 : ¬n = 0 := by omega
  have hspec := keep_cities_spec (fdf_pre df cs ks) n
  have hdef : fdf_base df cs ks (some n) =
      (fdf_pre df cs ks).filter
        (fun r => cityIn r (keep_cities (fdf_pre df cs ks) n)) := by
    simp [fdf_base, hn0]
  refine ⟨?_, hspec.1, hspec.2.1, hspec.2.2.1, hspec.2.2.2, ?_⟩
  · intro r
    rw [hdef, List.mem_filter]
    constructor
    · rintro ⟨h1, h2⟩
      exact ⟨h1, cityIn_iff.mp h2⟩
    · rintro ⟨h1, h2⟩
      exact ⟨h1, cityIn_iff.mpr h2⟩
  · intro hlen
    rw [hdef]
    apply List.filter_eq_self.mpr
    intro r hr
    obtain ⟨c, hc⟩ := Option.isSome_iff_exists.mp (isSome_of_mem_fdf_pre hr)
    exact cityIn_iff.mpr
      ⟨c, hc, mem_keep_of_all hlen (mem_candidate_cities.mpr ⟨r, hr, hc⟩)⟩

/-- A five-customer row of city B listed before city A, with equal totals. -/
def rowTieB : Row := ⟨some "B", 0, 5, 0, 0, 0, 0, 0⟩

/-- A five-customer row of city A listed after city B. -/
def rowTieA : Row := ⟨some "A", 0, 5, 0, 0, 0, 0, 0⟩

/-- City B appears first in row order; both cities have total 5. -/
def exTie : List Row := [rowTieB, rowTieA]

/-- Counterexample to C1 as stated: with two cities of equal CustomerCount
total and topN = 1, the code keeps city A (alphabetically first, the order
the `groupby` index is in when `sort_values` sees it), while the claimed
tie-break by original row order of first appearance would keep city B.  The
two results differ, so the claimed tie-break is not the implemented one. -/
theorem topN_tiebreak_counterexample :
    fdf_base exTie ["A", "B"] [0] (some 1) = [rowTieA] ∧
    fdf_base_specFirstAppearance exTie ["A", "B"] [0] (some 1) = [rowTieB] ∧
    fdf_base exTie ["A", "B"] [0] (some 1) ≠
      fdf_base_specFirstAppearance exTie ["A", "B"] [0] (some 1) := by
  have h1 : fdf_base exTie ["A", "B"] [0] (some 1) = [rowTieA] := by
    simp [fdf_base, fdf_pre, cityIn, keep_cities, city_totals_all, uniqueSorted, cityCount,
      cityGroup, List.insertionSort, List.orderedInsert, List.dedup, List.pwFilter, totalDesc,
      exTie, rowTieA, rowTieB, List.filter_cons, eq_true chAB]
  have h2 : fdf_base_specFirstAppearance exTie ["A", "B"] [0] (some 1) = [rowTieB] := by
    simp [fdf_base_specFirstAppearance, fdf_pre, cityIn, keep_cities_specFirstAppearance,
      cityCount, cityGroup, List.insertionSort, List.orderedInsert, List.dedup, List.pwFilter,
      totalDesc, exTie, rowTieA, rowTieB, List.filter_cons, eq_true chAB]
  refine ⟨h1, h2, ?_⟩
  rw [h1, h2]
  simp [rowTieA, rowTieB]

/-- Three rows over two cities: city B totals 4 + 3 = 7 customers, city A
totals 5. -/
def exTop : List Row :=
  [⟨some "B", 0, 4, 0, 0, 0, 0, 0⟩, ⟨some "A", 0, 5, 0, 0, 0, 0, 0⟩,
    ⟨some "B", 0, 3, 0, 0, 0, 0, 0⟩]

/-- Witness for the amended C1 at a concrete input: three rows over two
cities with totals 7 (city B) and 5 (city A) and topN = 1 keep exactly the
city-B rows. -/
theorem topN_selects_largest_totals_witness :
    (0 : Nat) < 1 ∧
    (∀ r, r ∈ fdf_base exTop ["A", "B"] [0] (some 1) ↔
      r ∈ fdf_pre exTop ["A", "B"] [0] ∧ ∃ c, r.custLocation = some c ∧
        c ∈ keep_cities (fdf_pre exTop ["A", "B"] [0]) 1) ∧
    fdf_base exTop ["A", "B"] [0] (some 1) =
      [⟨some "B", 0, 4, 0, 0, 0, 0, 0⟩, ⟨some "B", 0, 3, 0, 0, 0, 0, 0⟩] := by
  refine ⟨Nat.one_pos,
    (topN_selects_largest_totals exTop ["A", "B"] [0] 1 Nat.one_pos).1, ?_⟩
  simp [fdf_base, fdf_pre, cityIn, keep_cities, city_totals_all, uniqueSorted, cityCount,
    cityGroup, List.insertionSort, List.orderedInsert, List.dedup, List.pwFilter, totalDesc,
    exTop, List.filter_cons, eq_true chAB] <;>
    norm_num [List.insertionSort, List.orderedInsert, totalDesc, List.filter_cons, cityIn] <;>
    decide
